import Mathlib

/-!
# Verification of the 3FT `Node` module (`src/3FT/nodeFT.c`)

A shallow embedding of the node module of the file-tree repository.
Paths and the dynamic-array container are external collaborators of the
module; they are modelled from the spec (component lists with lexicographic
pathname comparison, plain Lean lists with sorted binary search).  Every
`Node_*` definition below is translated directly from `nodeFT.c`.
-/

namespace NodeFT

/-- Status codes returned by the node module (`SUCCESS`, `MEMORY_ERROR`,
`CONFLICTING_PATH`, `NO_SUCH_PATH`, `ALREADY_IN_TREE`). -/
inductive Status : Type where
  | SUCCESS : Status
  | MEMORY_ERROR : Status
  | CONFLICTING_PATH : Status
  | NO_SUCH_PATH : Status
  | ALREADY_IN_TREE : Status
deriving DecidableEq, Repr

open Status

/-- Modelled from the spec: the Path collaborator's lexicographic string
comparison (`strcmp` order on character sequences). -/
def cmpChars : List Char → List Char → Ordering
  | [], [] => Ordering.eq
  | [], _ :: _ => Ordering.lt
  | _ :: _, [] => Ordering.gt
  | a :: as, b :: bs =>
      if a < b then Ordering.lt
      else if b < a then Ordering.gt
      else cmpChars as bs

/-- Modelled from the spec: `strcmp`-style comparison of two pathname
strings, as used by `Path_compareString` / `Path_comparePath`. -/
def strCmp (s t : String) : Ordering :=
  cmpChars s.data t.data

/-- A path is modelled as its list of components; the Path collaborator
canonicalizes strings into such component sequences. -/
abbrev PathT := List String

/-- Modelled from the spec: `Path_getDepth` — the number of components. -/
def Path_getDepth (p : PathT) : Nat := p.length

/-- Modelled from the spec: `Path_getPathname` — the printable full
pathname, components joined by a separator. -/
def Path_getPathname (p : PathT) : String := String.intercalate "/" p

/-- Modelled from the spec: `Path_getSharedPrefixDepth` — the length of the
longest common leading component sequence of two paths. -/
def Path_getSharedPrefixDepth : PathT → PathT → Nat
  | a :: as, b :: bs => if a = b then Path_getSharedPrefixDepth as bs + 1 else 0
  | _, _ => 0

/-- Modelled from the spec: `Path_comparePath` — path ordering, the
lexicographic comparison of the two full pathnames. -/
def Path_comparePath (p q : PathT) : Ordering :=
  strCmp (Path_getPathname p) (Path_getPathname q)

/-- A node of the file tree: directory flag, owned path, the two sorted
children collections, and the file-content fields (`struct node` in
`nodeFT.c`; the non-owning parent back-reference is represented by passing
the parent's state explicitly to the operations that read or mutate it). -/
inductive Node : Type where
  | mk (isDir : Bool) (path : PathT) (dirChildren : List Node)
       (fileChildren : List Node) (fileContent : Option Nat)
       (fileSize : Nat) : Node

/-- The `isDir` field. -/
def Node.isDir : Node → Bool
  | .mk d _ _ _ _ _ => d

/-- The `oPPath` field (as its component list). -/
def Node.path : Node → PathT
  | .mk _ p _ _ _ _ => p

/-- The `oDDirChildren` field. -/
def Node.dirChildren : Node → List Node
  | .mk _ _ dc _ _ _ => dc

/-- The `oDFileChildren` field. -/
def Node.fileChildren : Node → List Node
  | .mk _ _ _ fc _ _ => fc

/-- The `fileContent` field (an owned buffer, modelled as an abstract
address; `none` is the null pointer). -/
def Node.fileContent : Node → Option Nat
  | .mk _ _ _ _ c _ => c

/-- The `fileSize` field. -/
def Node.fileSize : Node → Nat
  | .mk _ _ _ _ _ s => s

/-- Modelled from the spec: `DynArray_bsearch` — ordered search of the
container under a comparator; returns whether the sought key occurs and
the index at which it resides or, when absent, would be inserted. -/
def DynArray_bsearch (cmp : Node → Ordering) : List Node → Bool × Nat
  | [] => (false, 0)
  | x :: xs =>
      match cmp x with
      | Ordering.lt =>
          let r := DynArray_bsearch cmp xs
          (r.1, r.2 + 1)
      | Ordering.eq => (true, 0)
      | Ordering.gt => (false, 0)

/-- Modelled from the spec: `DynArray_addAt` — insertion at an index;
fails (returning `none`, with the container unmodified) when the index is
out of range or memory for growth is exhausted, the latter signalled by
the `ok` flag from the allocation oracle. -/
def DynArray_addAt (ok : Bool) (l : List Node) (i : Nat) (x : Node) :
    Option (List Node) :=
  if ok = true ∧ i ≤ l.length then some (l.insertIdx i x) else none

/-- Modelled from the spec: `DynArray_removeAt` — removal at an index. -/
def DynArray_removeAt (l : List Node) (i : Nat) : List Node :=
  l.eraseIdx i

/-- Model of `Node_compareString`: compares a node against a pathname string via
`Path_compareString` on the node's path. -/
def Node_compareString (oNFirst : Node) (pcSecond : String) : Ordering :=
  strCmp (Path_getPathname oNFirst.path) pcSecond

/-- Model of `Node_compare`, translated exactly from `nodeFT.c` lines 373-384: both
guard conditions test `oNFirst.isDir` against itself, so neither can hold
and the result is always the path comparison. -/
def Node_compare (oNFirst oNSecond : Node) : Ordering :=
  if oNFirst.isDir = false ∧ oNFirst.isDir = true then Ordering.lt
  else if oNFirst.isDir = true ∧ oNFirst.isDir = false then Ordering.gt
  else Path_comparePath oNFirst.path oNSecond.path

/-- The intended node comparator as the spec words it: directory flag
first (files sort before directories), then path ordering.  Stated for
comparison with `Node_compare` above. -/
def Node_compareSpec (oNFirst oNSecond : Node) : Ordering :=
  if oNFirst.isDir = false ∧ oNSecond.isDir = true then Ordering.lt
  else if oNFirst.isDir = true ∧ oNSecond.isDir = false then Ordering.gt
  else Path_comparePath oNFirst.path oNSecond.path

/-- Model of `Node_hasChild`: binary search for `oPPath` first among the directory
children, then among the file children.  The final values of the two
output parameters are returned together with the found flag: `pulChildID`
and `isDir` carry the values the caller's variables held before the call
(both are written by the searches exactly as in the C code — `pulChildID`
by every `DynArray_bsearch` call, `isDir` only on a successful match). -/
def Node_hasChild (oNParent : Node) (oPPath : PathT)
    (pulChildID : Nat) (isDir : Bool) : Bool × Nat × Bool :=
  let key := Path_getPathname oPPath
  let ri := DynArray_bsearch (fun n => Node_compareString n key) oNParent.dirChildren
  if ri.1 then (true, ri.2, true)
  else
    let rj := DynArray_bsearch (fun n => Node_compareString n key) oNParent.fileChildren
    if rj.1 then (true, rj.2, false)
    else (false, rj.2, isDir)

/-- Model of `Node_addChild`: links a child into the parent's directory-children or
file-children array at the given index, selected by `isDirec`; returns
`MEMORY_ERROR` (with the parent unmodified) when `DynArray_addAt` fails. -/
def Node_addChild (ok : Bool) (oNParent : Node) (oNChild : Node)
    (ulIndex : Nat) (isDirec : Bool) : Status × Node :=
  match oNParent with
  | .mk d p dc fc c s =>
      if isDirec then
        match DynArray_addAt ok dc ulIndex oNChild with
        | some dc2 => (SUCCESS, .mk d p dc2 fc c s)
        | none => (MEMORY_ERROR, .mk d p dc fc c s)
      else
        match DynArray_addAt ok fc ulIndex oNChild with
        | some fc2 => (SUCCESS, .mk d p dc fc2 c s)
        | none => (MEMORY_ERROR, .mk d p dc fc c s)

/-- Which allocations succeed during one `Node_new` call: the node struct
`malloc`, the `Path_dup`, the two `DynArray_new` calls, and the growth
inside `DynArray_addAt`. -/
structure AllocOracle : Type where
  mallocOk : Bool
  dupOk : Bool
  arraysOk : Bool
  addOk : Bool
deriving DecidableEq, Repr

/-- Model of `Node_new`, translated step by step from `nodeFT.c` lines 82-193.
Returns the status, the value stored through `*poNResult`, and the
parent's state after the call (unchanged on every failure path).  The
insertion index is the one left in `ulIndex` by the failed
`Node_hasChild` lookup, exactly as in the source. -/
def Node_new (alloc : AllocOracle) (isDirec : Bool) (oPPath : PathT)
    (oNParent : Option Node) (pvContents : Option Nat) (ulLength : Nat) :
    Status × Option Node × Option Node :=
  if alloc.mallocOk = false then (MEMORY_ERROR, none, oNParent)
  else if alloc.dupOk = false then (MEMORY_ERROR, none, oNParent)
  else
    match oNParent with
    | some parent =>
        let ulParentDepth := Path_getDepth parent.path
        let ulSharedDepth := Path_getSharedPrefixDepth oPPath parent.path
        if ulSharedDepth < ulParentDepth then
          (CONFLICTING_PATH, none, some parent)
        else if Path_getDepth oPPath ≠ ulParentDepth + 1 then
          (NO_SUCH_PATH, none, some parent)
        else
          let hc := Node_hasChild parent oPPath 0 isDirec
          if hc.1 then (ALREADY_IN_TREE, none, some parent)
          else
            let ulIndex := hc.2.1
            if alloc.arraysOk = false then (MEMORY_ERROR, none, some parent)
            else
              let psNew : Node :=
                if isDirec = false then
                  .mk isDirec oPPath [] [] pvContents ulLength
                else
                  .mk isDirec oPPath [] [] none 0
              let ac := Node_addChild alloc.addOk parent psNew ulIndex isDirec
              if ac.1 ≠ SUCCESS then (ac.1, none, some parent)
              else (SUCCESS, some psNew, some ac.2)
    | none =>
        if Path_getDepth oPPath ≠ 1 then (NO_SUCH_PATH, none, none)
        else if alloc.arraysOk = false then (MEMORY_ERROR, none, none)
        else
          let psNew : Node :=
            if isDirec = false then
              .mk isDirec oPPath [] [] pvContents ulLength
            else
              .mk isDirec oPPath [] [] none 0
          (SUCCESS, some psNew, none)

mutual

/-- The list of all nodes of a subtree: the node itself and, transitively,
all directory and file children. -/
def Node_subtreeNodes : Node → List Node
  | .mk d p dcs fcs c s =>
      Node.mk d p dcs fcs c s :: (subtreeList dcs ++ subtreeList fcs)

/-- The concatenated subtree node lists of a list of nodes. -/
def subtreeList : List Node → List Node
  | [] => []
  | c :: cs => Node_subtreeNodes c ++ subtreeList cs

end

/-- Model of the detach-from-parent step of `Node_free` (`nodeFT.c` lines
204-221): when the node has a parent (`pArr` is `some`), each of the
parent's two arrays that is not `NULL` (`none`) is binary-searched for the
node under the node-vs-node comparator `Node_compare` and, on a hit, the
entry at the found index is removed.  Both blocks run unconditionally, so
a search keyed on the node's path can also remove an entry of the other
collection. -/
def detachStep (oNNode : Node)
    (pArr : Option (Option (List Node) × Option (List Node))) :
    Option (Option (List Node) × Option (List Node)) :=
  match pArr with
  | none => none
  | some (pd, pf) =>
      let pd2 :=
        match pd with
        | none => none
        | some d =>
            let rd := DynArray_bsearch (fun x => Node_compare x oNNode) d
            some (if rd.1 then DynArray_removeAt d rd.2 else d)
      let pf2 :=
        match pf with
        | none => none
        | some f =>
            let rf := DynArray_bsearch (fun x => Node_compare x oNNode) f
            some (if rf.1 then DynArray_removeAt f rf.2 else f)
      some (pd2, pf2)

mutual

/-- Model of `Node_free` (`nodeFT.c` lines 195-250), fuel-indexed because
the C while-loops need not terminate on arbitrary heap states.  The call
first performs the detach-from-parent step on the caller-visible parent
arrays (`pArr`; `none` models a `NULL` parent), then runs the destructive
while-loop over the directory children (each recursive free detaches the
child from the current arrays, which are threaded through the loop), then
frees the directory array (so it is `NULL`, absent, during the second
loop), runs the file-children loop, and returns the freed-node count plus
one together with the updated parent arrays.  `none` is returned when the
fuel runs out — the model's image of a loop that never empties its
array. -/
def Node_free : Nat → Node →
    Option (Option (List Node) × Option (List Node)) →
    Option (Nat × Option (Option (List Node) × Option (List Node)))
  | 0, _, _ => none
  | Nat.succ fuel, oNNode, pArr =>
      let pArr2 := detachStep oNNode pArr
      match Node_free_dirLoop fuel oNNode.dirChildren oNNode.fileChildren 0 with
      | none => none
      | some (cnt, f1) =>
          match Node_free_fileLoop fuel f1 cnt with
          | none => none
          | some cnt2 => some (cnt2 + 1, pArr2)

/-- The first while-loop of `Node_free` (`nodeFT.c` lines 225-227): while
the directory array is nonempty, recursively free its element at index 0;
that call detaches the child from the current directory and file arrays
(both non-`NULL` at this point), whose updated values the loop continues
on.  Returns the accumulated count and the file array left behind. -/
def Node_free_dirLoop : Nat → List Node → List Node → Nat →
    Option (Nat × List Node)
  | _, [], f, acc => some (acc, f)
  | 0, _ :: _, _, _ => none
  | Nat.succ fuel, c :: rest, f, acc =>
      match Node_free fuel c (some (some (c :: rest), some f)) with
      | some (k, some (some d2, some f2)) => Node_free_dirLoop fuel d2 f2 (acc + k)
      | _ => none

/-- The second while-loop of `Node_free` (`nodeFT.c` lines 232-235): the
directory array has already been freed and nulled (lines 229-230), so the
recursive free of each file child detaches only from the file array. -/
def Node_free_fileLoop : Nat → List Node → Nat → Option Nat
  | _, [], acc => some acc
  | 0, _ :: _, _ => none
  | Nat.succ fuel, c :: rest, acc =>
      match Node_free fuel c (some (none, some (c :: rest))) with
      | some (k, some (_, some f2)) => Node_free_fileLoop fuel f2 (acc + k)
      | _ => none

end

/-- The total subtree size of each node of a list, summed. -/
def sumS (l : List Node) : Nat :=
  (l.map fun c => (Node_subtreeNodes c).length).sum

/-- Model of `Node_getChild`: bounds-checked positional access into the collection
selected by `childIsDir` (`nodeFT.c` lines 338-364). -/
def Node_getChild (childIsDir : Bool) (oNParent : Node) (ulChildID : Nat) :
    Status × Option Node :=
  if childIsDir then
    if oNParent.dirChildren.length ≤ ulChildID then (NO_SUCH_PATH, none)
    else (SUCCESS, oNParent.dirChildren[ulChildID]?)
  else
    if oNParent.fileChildren.length ≤ ulChildID then (NO_SUCH_PATH, none)
    else (SUCCESS, oNParent.fileChildren[ulChildID]?)

/-- Model of `Node_getFileContents`. -/
def Node_getFileContents (oNNode : Node) : Option Nat :=
  oNNode.fileContent

/-- Model of `Node_getFileSize`. -/
def Node_getFileSize (oNNode : Node) : Nat :=
  oNNode.fileSize

/-- Model of `Node_replaceFileContents`: swaps in the new buffer and length and
returns the previous buffer (`nodeFT.c` lines 402-417). -/
def Node_replaceFileContents (oNNode : Node) (pvNewContents : Option Nat)
    (ulNewLength : Nat) : Option Nat × Node :=
  match oNNode with
  | .mk d p dc fc c _ => (c, .mk d p dc fc pvNewContents ulNewLength)

/-- A children collection is sorted under the path ordering when each
consecutive pair is strictly increasing by `Path_comparePath`. -/
def sortedByPath : List Node → Bool
  | [] => true
  | [_] => true
  | a :: b :: rest =>
      (Path_comparePath a.path b.path = Ordering.lt) && sortedByPath (b :: rest)

/-- The structural invariants the module maintains on every node of a
subtree (spec section 3): both children collections strictly sorted under
the path ordering, and no directory child sharing a pathname with a file
child of the same parent (`Node_hasChild` checks both collections before
any insertion). -/
def wellFormed (n : Node) : Prop :=
  ∀ m ∈ Node_subtreeNodes n,
    sortedByPath m.dirChildren = true ∧
    sortedByPath m.fileChildren = true ∧
    ∀ x ∈ m.dirChildren, ∀ y ∈ m.fileChildren,
      Path_getPathname x.path ≠ Path_getPathname y.path

/-! ## Concrete fixtures used by witnesses and counterexamples -/

/-- An allocation oracle on which every allocation succeeds. -/
def allocAll : AllocOracle := ⟨true, true, true, true⟩

/-- Directory node at path `root/a`. -/
def wNodeA : Node := Node.mk true ["root", "a"] [] [] none 0

/-- Directory node at path `root/c`. -/
def wNodeC : Node := Node.mk true ["root", "c"] [] [] none 0

/-- File node at path `root/f` holding a 3-byte buffer. -/
def wFileF : Node := Node.mk false ["root", "f"] [] [] (some 7) 3

/-- Directory `root` with sorted directory children `root/a`, `root/c` and
file child `root/f`. -/
def wParent : Node := Node.mk true ["root"] [wNodeA, wNodeC] [wFileF] none 0

/-- The directory node `root/b` that `Node_new` builds in the C1 scenario. -/
def wNodeB : Node := Node.mk true ["root", "b"] [] [] none 0

/-- The state of `wParent` after inserting directory `root/b` at the index
computed against the file-children collection (index 0). -/
def wParentAfterB : Node :=
  Node.mk true ["root"] [wNodeB, wNodeA, wNodeC] [wFileF] none 0

/-- File node `root/dir1/file1` with a 5-byte buffer (the teardown
scenario of spec section 8). -/
def wFile1 : Node := Node.mk false ["root", "dir1", "file1"] [] [] (some 2) 5

/-- Directory node `root/dir1` with the single file child `wFile1`. -/
def wDir1 : Node := Node.mk true ["root", "dir1"] [] [wFile1] none 0

/-- Directory node `root` with the single directory child `wDir1`: a
3-node tree for the free-count witness. -/
def wRootT : Node := Node.mk true ["root"] [wDir1] [] none 0

/-- A file node at path `a`. -/
def wFileA : Node := Node.mk false ["a"] [] [] (some 1) 1

/-- A directory node at the same path `a`. -/
def wDirA : Node := Node.mk true ["a"] [] [] none 0

/-! ## Claims -/

/-- Claim C1 (code bug): the sortedness invariant fails.  Starting from a
parent whose directory children `[root/a, root/c]` and file children
`[root/f]` are sorted, `Node_new` successfully inserts the directory
`root/b` — but at index 0, the insertion position that `Node_hasChild`
computed against the *file*-children collection, leaving the
directory-children collection `[root/b, root/a, root/c]` unsorted under
the path ordering. -/
theorem Node_new_breaks_dir_sortedness :
    sortedByPath wParent.dirChildren = true ∧
    sortedByPath wParent.fileChildren = true ∧
    Node_new allocAll true ["root", "b"] (some wParent) none 0 =
      (Status.SUCCESS, some wNodeB, some wParentAfterB) ∧
    wParentAfterB.dirChildren = [wNodeB, wNodeA, wNodeC] ∧
    sortedByPath wParentAfterB.dirChildren = false := by
  exact ⟨rfl, rfl, rfl, rfl, rfl⟩

/-- Helper: both guards of `Node_compare` test `oNFirst.isDir` against
itself, so neither fires and the result is always the path ordering. -/
theorem Node_compare_path_only (a b : Node) :
    Node_compare a b = Path_comparePath a.path b.path := by
  unfold Node_compare
  rcases h : a.isDir <;> simp [h]

/-- Claim C2 (code bug): `Node_compare` never consults the directory flags —
both guard conditions in the source test `oNFirst->isDir` against itself —
so for the file `a` and the directory `a`, whose flags differ, it returns
`eq` (the pure path comparison) while the spec's flag-first comparator
distinguishes them; in general `Node_compare` coincides with the path
ordering on every pair of nodes. -/
theorem Node_compare_flag_not_consulted :
    wFileA.isDir ≠ wDirA.isDir ∧
    Node_compare wFileA wDirA = Ordering.eq ∧
    Node_compareSpec wFileA wDirA = Ordering.lt ∧
    ∀ a b : Node, Node_compare a b = Path_comparePath a.path b.path :=
  ⟨by decide, rfl, rfl, Node_compare_path_only⟩

/-- Character-list comparison reports `eq` exactly on equal lists. -/
theorem cmpChars_eq_iff (as bs : List Char) :
    cmpChars as bs = Ordering.eq ↔ as = bs := by
  induction as generalizing bs with
  | nil => cases bs <;> simp [cmpChars]
  | cons a as ih =>
    cases bs with
    | nil => simp [cmpChars]
    | cons b bs =>
      unfold cmpChars
      split_ifs with h1 h2
      · constructor
        · intro hcontra
          exact absurd hcontra (by decide)
        · intro he
          injection he with hab _
          subst hab
          exact absurd h1 (lt_irrefl a)
      · constructor
        · intro hcontra
          exact absurd hcontra (by decide)
        · intro he
          injection he with hab _
          subst hab
          exact absurd h2 (lt_irrefl a)
      · have hab : a = b := le_antisymm (not_lt.mp h2) (not_lt.mp h1)
        subst hab
        simp [ih]

/-- Helper: `strCmp` reports `eq` exactly on equal strings. -/
theorem strCmp_eq_iff (s t : String) : strCmp s t = Ordering.eq ↔ s = t := by
  unfold strCmp
  rw [cmpChars_eq_iff]
  constructor
  · intro h
    exact congrArg String.mk h
  · intro h
    rw [h]

/-- Helper: `Node_compare` is reflexively `eq` (its guards never fire and
the path ordering is reflexive). -/
theorem Node_compare_self (c : Node) : Node_compare c c = Ordering.eq := by
  rw [Node_compare_path_only]
  exact (strCmp_eq_iff _ _).mpr rfl

/-- Searching a collection for its own head under `Node_compare` finds it
at index 0. -/
theorem bsearch_head_self (c : Node) (rest : List Node) :
    DynArray_bsearch (fun x => Node_compare x c) (c :: rest) = (true, 0) := by
  unfold DynArray_bsearch
  simp [Node_compare_self]

/-- When no element of the collection shares the node's pathname, the
search under `Node_compare` reports not-found. -/
theorem bsearch_nodeCmp_not_found (c : Node) (l : List Node)
    (h : ∀ x ∈ l, Path_getPathname x.path ≠ Path_getPathname c.path) :
    (DynArray_bsearch (fun x => Node_compare x c) l).1 = false := by
  induction l with
  | nil => rfl
  | cons x xs ih =>
    have hx : Node_compare x c ≠ Ordering.eq := by
      intro he
      rw [Node_compare_path_only] at he
      exact h x (List.mem_cons_self x xs) ((strCmp_eq_iff _ _).mp he)
    unfold DynArray_bsearch
    dsimp only
    split
    next heq => exact ih fun y hy => h y (List.mem_cons_of_mem x hy)
    next heq => exact absurd heq hx
    next heq => rfl

/-- Detaching the head of the directory array removes exactly it and, when
no file child shares its pathname, leaves the file array untouched. -/
theorem detachStep_head_dir (c : Node) (rest f : List Node)
    (hf : ∀ y ∈ f, Path_getPathname y.path ≠ Path_getPathname c.path) :
    detachStep c (some (some (c :: rest), some f)) = some (some rest, some f) := by
  have h1 := bsearch_head_self c rest
  have h2 := bsearch_nodeCmp_not_found c f hf
  unfold detachStep
  dsimp only
  rw [h1]
  simp [h2, DynArray_removeAt]

/-- Detaching the head of the file array (the directory array being
already freed and `NULL`) removes exactly it. -/
theorem detachStep_head_file (c : Node) (rest : List Node) :
    detachStep c (some (none, some (c :: rest))) = some (none, some rest) := by
  have h1 := bsearch_head_self c rest
  unfold detachStep
  dsimp only
  rw [h1]
  simp [DynArray_removeAt]

/-- The length of a concatenated subtree list is the summed subtree
size. -/
theorem subtreeList_length (l : List Node) :
    (subtreeList l).length = sumS l := by
  induction l with
  | nil => rfl
  | cons c cs ih =>
      simp only [subtreeList, List.length_append, ih, sumS, List.map_cons,
        List.sum_cons]

/-- Subtree size of a constructed node: the children's sizes plus one. -/
theorem subtree_len_mk (d : Bool) (p : PathT) (dcs fcs : List Node)
    (c : Option Nat) (s : Nat) :
    (Node_subtreeNodes (Node.mk d p dcs fcs c s)).length =
      sumS dcs + sumS fcs + 1 := by
  simp only [Node_subtreeNodes, List.length_cons, List.length_append,
    subtreeList_length]

/-- Every subtree holds at least the node itself. -/
theorem subtree_len_pos (n : Node) : 1 ≤ (Node_subtreeNodes n).length := by
  rcases n with ⟨d, p, dcs, fcs, c, s⟩
  simp [Node_subtreeNodes]

/-- A node is a member of its own subtree list. -/
theorem self_mem_subtreeNodes (n : Node) : n ∈ Node_subtreeNodes n := by
  rcases n with ⟨d, p, dcs, fcs, c, s⟩
  simp [Node_subtreeNodes]

/-- Membership in a child's subtree transfers to the concatenated
subtree list of any list containing the child. -/
theorem mem_subtreeList_of_mem {c m : Node} {l : List Node}
    (hc : c ∈ l) (hm : m ∈ Node_subtreeNodes c) : m ∈ subtreeList l := by
  induction l with
  | nil => cases hc
  | cons x xs ih =>
      simp only [subtreeList]
      rcases List.mem_cons.mp hc with h | h
      · subst h
        exact List.mem_append_left _ hm
      · exact List.mem_append_right _ (ih h)

/-- Well-formedness is inherited by every directory child. -/
theorem wellFormed_of_dirChild {n c : Node} (hwf : wellFormed n)
    (hc : c ∈ n.dirChildren) : wellFormed c := by
  intro m hm
  rcases n with ⟨d, p, dcs, fcs, cc, s⟩
  simp only [Node.dirChildren] at hc
  apply hwf
  simp only [Node_subtreeNodes, List.mem_cons]
  right
  exact List.mem_append_left _ (mem_subtreeList_of_mem hc hm)

/-- Well-formedness is inherited by every file child. -/
theorem wellFormed_of_fileChild {n c : Node} (hwf : wellFormed n)
    (hc : c ∈ n.fileChildren) : wellFormed c := by
  intro m hm
  rcases n with ⟨d, p, dcs, fcs, cc, s⟩
  simp only [Node.fileChildren] at hc
  apply hwf
  simp only [Node_subtreeNodes, List.mem_cons]
  right
  exact List.mem_append_right _ (mem_subtreeList_of_mem hc hm)

/-- The node-level facts of well-formedness. -/
theorem wellFormed_head {n : Node} (hwf : wellFormed n) :
    sortedByPath n.dirChildren = true ∧
    sortedByPath n.fileChildren = true ∧
    ∀ x ∈ n.dirChildren, ∀ y ∈ n.fileChildren,
      Path_getPathname x.path ≠ Path_getPathname y.path :=
  hwf n (self_mem_subtreeNodes n)

/-- The joint fuel-indexed correctness of `Node_free` and its two loops on
well-formed trees: with fuel at least twice the subtree size, `Node_free`
returns exactly the subtree size together with the detached parent
arrays, and each loop empties its collection accumulating the children's
subtree sizes (the directory loop leaving the file array untouched). -/
theorem Node_free_fuel_spec : ∀ fuel : Nat,
    (∀ n pArr, wellFormed n →
      2 * (Node_subtreeNodes n).length ≤ fuel + 1 →
      Node_free fuel n pArr =
        some ((Node_subtreeNodes n).length, detachStep n pArr)) ∧
    (∀ d f acc, (∀ c ∈ d, wellFormed c) →
      (∀ c ∈ d, ∀ y ∈ f, Path_getPathname y.path ≠ Path_getPathname c.path) →
      2 * sumS d ≤ fuel →
      Node_free_dirLoop fuel d f acc = some (acc + sumS d, f)) ∧
    (∀ f acc, (∀ c ∈ f, wellFormed c) → 2 * sumS f ≤ fuel →
      Node_free_fileLoop fuel f acc = some (acc + sumS f)) := by
  intro fuel
  induction fuel with
  | zero =>
      refine ⟨?_, ?_, ?_⟩
      · intro n pArr hwf hle
        exact absurd hle (by have := subtree_len_pos n; omega)
      · intro d f acc hwfs hdisj hle
        cases d with
        | nil => simp [Node_free_dirLoop, sumS]
        | cons c rest =>
            exact absurd hle (by
              have := subtree_len_pos c
              simp only [sumS, List.map_cons, List.sum_cons]
              omega)
      · intro f acc hwfs hle
        cases f with
        | nil => simp [Node_free_fileLoop, sumS]
        | cons c rest =>
            exact absurd hle (by
              have := subtree_len_pos c
              simp only [sumS, List.map_cons, List.sum_cons]
              omega)
  | succ fuel ih =>
      obtain ⟨ihA, ihB, ihC⟩ := ih
      refine ⟨?_, ?_, ?_⟩
      · intro n pArr hwf hle
        obtain ⟨hsd, hsf, hdisj⟩ := wellFormed_head hwf
        have hdw : ∀ c ∈ n.dirChildren, wellFormed c := fun c hc =>
          wellFormed_of_dirChild hwf hc
        have hfw : ∀ c ∈ n.fileChildren, wellFormed c := fun c hc =>
          wellFormed_of_fileChild hwf hc
        rcases n with ⟨d0, p0, dcs, fcs, cc, ss⟩
        simp only [Node.dirChildren, Node.fileChildren] at hdw hfw hdisj
        have hlen := subtree_len_mk d0 p0 dcs fcs cc ss
        rw [hlen] at hle ⊢
        have hdisj2 : ∀ c ∈ dcs, ∀ y ∈ fcs,
            Path_getPathname y.path ≠ Path_getPathname c.path :=
          fun c hc y hy => (hdisj c hc y hy).symm
        have hB := ihB dcs fcs 0 hdw hdisj2 (by omega)
        have hC := ihC fcs (0 + sumS dcs) hfw (by omega)
        unfold Node_free
        dsimp only [Node.dirChildren, Node.fileChildren]
        rw [hB]
        dsimp only
        rw [hC]
        dsimp only
        simp
      · intro d f acc hwfs hdisj hle
        cases d with
        | nil => simp [Node_free_dirLoop, sumS]
        | cons c rest =>
            have hScpos := subtree_len_pos c
            have hsum : sumS (c :: rest) =
                (Node_subtreeNodes c).length + sumS rest := by
              simp [sumS]
            have hA := ihA c (some (some (c :: rest), some f))
              (hwfs c (List.mem_cons_self c rest)) (by omega)
            have hdet := detachStep_head_dir c rest f
              (fun y hy => hdisj c (List.mem_cons_self c rest) y hy)
            have hB2 := ihB rest f (acc + (Node_subtreeNodes c).length)
              (fun x hx => hwfs x (List.mem_cons_of_mem c hx))
              (fun x hx y hy => hdisj x (List.mem_cons_of_mem c hx) y hy)
              (by omega)
            unfold Node_free_dirLoop
            rw [hA, hdet, hsum, ← Nat.add_assoc]
            exact hB2
      · intro f acc hwfs hle
        cases f with
        | nil => simp [Node_free_fileLoop, sumS]
        | cons c rest =>
            have hScpos := subtree_len_pos c
            have hsum : sumS (c :: rest) =
                (Node_subtreeNodes c).length + sumS rest := by
              simp [sumS]
            have hA := ihA c (some (none, some (c :: rest)))
              (hwfs c (List.mem_cons_self c rest)) (by omega)
            have hdet := detachStep_head_file c rest
            have hC2 := ihC rest (acc + (Node_subtreeNodes c).length)
              (fun x hx => hwfs x (List.mem_cons_of_mem c hx)) (by omega)
            unfold Node_free_fileLoop
            rw [hA, hdet, hsum, ← Nat.add_assoc]
            exact hC2

/-- Claim C3 (confirmed): on every tree satisfying the module's structural
invariants (children collections sorted, no pathname shared between a
directory child and a file child of the same parent) and any parent-array
context, `Node_free` — with fuel covering its recursion, at least twice
the subtree size — frees the entire subtree and returns exactly the
number of its nodes: the node itself plus all of its transitive directory
and file children; the parent arrays come back with exactly the node
detached.  On invariant-violating states (reachable only through the C1
defect) the model, like the C loops whose binary-search detach can miss,
never returns. -/
theorem Node_free_count_eq_subtree_size (n : Node) (fuel : Nat)
    (pArr : Option (Option (List Node) × Option (List Node)))
    (hwf : wellFormed n)
    (hfuel : 2 * (Node_subtreeNodes n).length ≤ fuel) :
    Node_free fuel n pArr =
      some ((Node_subtreeNodes n).length, detachStep n pArr) :=
  (Node_free_fuel_spec fuel).1 n pArr hwf (Nat.le_succ_of_le hfuel)

/-- Witness for C3: the spec's teardown scenario `root` → `root/dir1` →
`root/dir1/file1` (3 nodes) is well-formed and freeing the root with
fuel 6 returns exactly 3. -/
theorem Node_free_count_eq_subtree_size_witness :
    wellFormed wRootT ∧ 2 * (Node_subtreeNodes wRootT).length ≤ 6 ∧
    Node_free 6 wRootT none = some (3, none) := by
  have hwf : wellFormed wRootT := by
    unfold wellFormed
    decide
  refine ⟨hwf, by decide, ?_⟩
  exact Node_free_count_eq_subtree_size wRootT 6 none hwf (by decide)

/-- Helper: `Node_addChild` only ever reports `SUCCESS` or `MEMORY_ERROR`. -/
theorem Node_addChild_status_cases (ok : Bool) (oNParent oNChild : Node)
    (ulIndex : Nat) (isDirec : Bool) :
    (Node_addChild ok oNParent oNChild ulIndex isDirec).1 = Status.SUCCESS ∨
    (Node_addChild ok oNParent oNChild ulIndex isDirec).1 = Status.MEMORY_ERROR := by
  rcases oNParent with ⟨d, p, dc, fc, c, s⟩
  simp only [Node_addChild]
  by_cases hdir : isDirec = true
  · rw [if_pos hdir]
    cases hadd : DynArray_addAt ok dc ulIndex oNChild <;> simp [hadd]
  · rw [if_neg hdir]
    cases hadd : DynArray_addAt ok fc ulIndex oNChild <;> simp [hadd]

/-- Helper: `Node_addChild` never reports `NO_SUCH_PATH`. -/
theorem Node_addChild_status_ne (ok : Bool) (oNParent oNChild : Node)
    (ulIndex : Nat) (isDirec : Bool) :
    (Node_addChild ok oNParent oNChild ulIndex isDirec).1 ≠
      Status.NO_SUCH_PATH := by
  rcases Node_addChild_status_cases ok oNParent oNChild ulIndex isDirec with
    hs | hs <;> simp [hs]

set_option maxHeartbeats 2000000 in
/-- On every rejected `Node_new` call, the result pointer is `NULL` and
the parent is exactly as supplied. -/
theorem Node_new_rejected_outputs (alloc : AllocOracle)
    (isDirec : Bool) (oPPath : PathT) (oNParent : Option Node)
    (pv : Option Nat) (len : Nat)
    (h : (Node_new alloc isDirec oPPath oNParent pv len).1 ≠ Status.SUCCESS) :
    (Node_new alloc isDirec oPPath oNParent pv len).2.1 = none ∧
    (Node_new alloc isDirec oPPath oNParent pv len).2.2 = oNParent := by
  rcases oNParent with _ | parent <;>
    · unfold Node_new at h ⊢
      dsimp only at h ⊢
      split_ifs at h ⊢ <;> first | exact ⟨rfl, rfl⟩ | exact absurd rfl h

/-- Claim C4 (confirmed): whenever `Node_new` reports a non-`SUCCESS` status,
the supplied parent (in particular both of its children collections) is
returned exactly as it was passed in — validation fully precedes any
mutation of shared state. -/
theorem Node_new_rejected_preserves_parent (alloc : AllocOracle)
    (isDirec : Bool) (oPPath : PathT) (oNParent : Option Node)
    (pv : Option Nat) (len : Nat)
    (h : (Node_new alloc isDirec oPPath oNParent pv len).1 ≠ Status.SUCCESS) :
    (Node_new alloc isDirec oPPath oNParent pv len).2.2 = oNParent :=
  (Node_new_rejected_outputs alloc isDirec oPPath oNParent pv len h).2

/-- Witness for C4: creating `other` under the parent `root` is rejected
(`CONFLICTING_PATH`), and the parent comes back unchanged. -/
theorem Node_new_rejected_preserves_parent_witness :
    (Node_new allocAll true ["other"] (some wParent) none 0).1 ≠
      Status.SUCCESS ∧
    (Node_new allocAll true ["other"] (some wParent) none 0).2.2 =
      some wParent := by
  exact ⟨by decide,
    Node_new_rejected_preserves_parent allocAll true ["other"] (some wParent)
      none 0 (by decide)⟩

/-- Claim C9 (confirmed): whenever `Node_new` reports a non-`SUCCESS` status,
the value stored through `*poNResult` is `NULL`. -/
theorem Node_new_rejected_null_result (alloc : AllocOracle) (isDirec : Bool)
    (oPPath : PathT) (oNParent : Option Node) (pv : Option Nat) (len : Nat)
    (h : (Node_new alloc isDirec oPPath oNParent pv len).1 ≠ Status.SUCCESS) :
    (Node_new alloc isDirec oPPath oNParent pv len).2.1 = none :=
  (Node_new_rejected_outputs alloc isDirec oPPath oNParent pv len h).1

/-- Witness for C9: a parentless creation at depth-2 path `root/a` is
rejected and the result pointer is `NULL`. -/
theorem Node_new_rejected_null_result_witness :
    (Node_new allocAll true ["root", "a"] none none 0).1 ≠ Status.SUCCESS ∧
    (Node_new allocAll true ["root", "a"] none none 0).2.1 = none := by
  exact ⟨by decide,
    Node_new_rejected_null_result allocAll true ["root", "a"] none none 0
      (by decide)⟩

/-- Claim C5 (confirmed): when the shared-prefix depth of the new path with
the parent's path is strictly below the parent's depth, `Node_new` returns
`CONFLICTING_PATH` with a `NULL` result and an unchanged parent,
unconditionally in the remaining path conditions — the ancestry check
precedes the depth-mismatch and duplicate-child checks. -/
theorem Node_new_conflicting_first (alloc : AllocOracle) (isDirec : Bool)
    (oPPath : PathT) (parent : Node) (pv : Option Nat) (len : Nat)
    (hm : alloc.mallocOk = true) (hd : alloc.dupOk = true)
    (hshared : Path_getSharedPrefixDepth oPPath parent.path <
      Path_getDepth parent.path) :
    Node_new alloc isDirec oPPath (some parent) pv len =
      (Status.CONFLICTING_PATH, none, some parent) := by
  unfold Node_new
  simp [hm, hd, hshared]

/-- Witness for C5: creating `other/x/y` under the parent `root` — whose
depth check (3 ≠ 2) would also fail — is rejected as `CONFLICTING_PATH`. -/
theorem Node_new_conflicting_first_witness :
    Path_getSharedPrefixDepth ["other", "x", "y"] wParent.path <
      Path_getDepth wParent.path ∧
    Path_getDepth ["other", "x", "y"] ≠ Path_getDepth wParent.path + 1 ∧
    Node_new allocAll false ["other", "x", "y"] (some wParent) (some 4) 2 =
      (Status.CONFLICTING_PATH, none, some wParent) := by
  exact ⟨by decide, by decide,
    Node_new_conflicting_first allocAll false ["other", "x", "y"] wParent
      (some 4) 2 rfl rfl (by decide)⟩

/-- Claim C6 (confirmed): given that the node allocation and the path
duplication succeed, `Node_new` reports `NO_SUCH_PATH` exactly when the
parent is absent and the new path's depth is not 1, or the parent is
present, is a true path ancestor, and the new path's depth is not the
parent's depth plus one. -/
theorem Node_new_noSuchPath_iff (alloc : AllocOracle) (isDirec : Bool)
    (oPPath : PathT) (oNParent : Option Node) (pv : Option Nat) (len : Nat)
    (hm : alloc.mallocOk = true) (hd : alloc.dupOk = true) :
    (Node_new alloc isDirec oPPath oNParent pv len).1 = Status.NO_SUCH_PATH ↔
      ((oNParent = none ∧ Path_getDepth oPPath ≠ 1) ∨
       (∃ parent, oNParent = some parent ∧
          Path_getDepth parent.path ≤
            Path_getSharedPrefixDepth oPPath parent.path ∧
          Path_getDepth oPPath ≠ Path_getDepth parent.path + 1)) := by
  rcases oNParent with _ | parent
  · unfold Node_new
    simp [hm, hd]
    split_ifs <;> simp_all
  · unfold Node_new
    simp [hm, hd]
    split_ifs <;> simp_all [Node_addChild_status_ne]

/-- Witness for C6: creating `root/a/b` under the parent `root` (a true
ancestor, but two levels down) yields `NO_SUCH_PATH`. -/
theorem Node_new_noSuchPath_iff_witness :
    (Node_new allocAll true ["root", "a", "b"] (some wParent) none 0).1 =
      Status.NO_SUCH_PATH := by
  exact (Node_new_noSuchPath_iff allocAll true ["root", "a", "b"]
      (some wParent) none 0 rfl rfl).mpr
    (Or.inr ⟨wParent, rfl, by decide, by decide⟩)

/-- Claim C7 (confirmed): on a file node, `Node_replaceFileContents` returns
exactly the previously stored buffer, afterwards `Node_getFileContents`
and `Node_getFileSize` return exactly the new buffer and length, and the
directory flag, path and both children collections are untouched. -/
theorem Node_replaceFileContents_spec (n : Node) (pv : Option Nat)
    (len : Nat) (hfile : n.isDir = false) :
    (Node_replaceFileContents n pv len).1 = Node_getFileContents n ∧
    Node_getFileContents (Node_replaceFileContents n pv len).2 = pv ∧
    Node_getFileSize (Node_replaceFileContents n pv len).2 = len ∧
    (Node_replaceFileContents n pv len).2.isDir = n.isDir ∧
    (Node_replaceFileContents n pv len).2.path = n.path ∧
    (Node_replaceFileContents n pv len).2.dirChildren = n.dirChildren ∧
    (Node_replaceFileContents n pv len).2.fileChildren = n.fileChildren := by
  rcases n with ⟨d, p, dc, fc, c, s⟩
  exact ⟨rfl, rfl, rfl, rfl, rfl, rfl, rfl⟩

/-- Witness for C7: replacing the 3-byte buffer of the file `root/f` with
a new 5-byte buffer returns the old buffer and updates both accessors. -/
theorem Node_replaceFileContents_spec_witness :
    wFileF.isDir = false ∧
    (Node_replaceFileContents wFileF (some 9) 5).1 = some 7 ∧
    Node_getFileContents (Node_replaceFileContents wFileF (some 9) 5).2 =
      some 9 ∧
    Node_getFileSize (Node_replaceFileContents wFileF (some 9) 5).2 = 5 := by
  have h := Node_replaceFileContents_spec wFileF (some 9) 5 rfl
  exact ⟨rfl, h.1, h.2.1, h.2.2.1⟩

/-- The collection that `Node_getChild` indexes into, selected by the
`childIsDir` argument. -/
def selChildren (childIsDir : Bool) (oNParent : Node) : List Node :=
  if childIsDir then oNParent.dirChildren else oNParent.fileChildren

/-- Claim C8 (confirmed): `Node_getChild` returns `NO_SUCH_PATH` with a
`NULL` result whenever the index is at least the length of the selected
collection, and otherwise `SUCCESS` with the node stored at that index of
the selected collection. -/
theorem Node_getChild_bounds (childIsDir : Bool) (oNParent : Node)
    (ulChildID : Nat) :
    ((selChildren childIsDir oNParent).length ≤ ulChildID →
      Node_getChild childIsDir oNParent ulChildID =
        (Status.NO_SUCH_PATH, none)) ∧
    ∀ h : ulChildID < (selChildren childIsDir oNParent).length,
      Node_getChild childIsDir oNParent ulChildID =
        (Status.SUCCESS,
         some ((selChildren childIsDir oNParent).get ⟨ulChildID, h⟩)) := by
  constructor
  · intro hle
    by_cases hdir : childIsDir = true <;>
      simp_all [Node_getChild, selChildren]
  · intro h
    by_cases hdir : childIsDir = true
    · have hlt : ulChildID < oNParent.dirChildren.length := by
        simpa [selChildren, hdir] using h
      simp [Node_getChild, selChildren, hdir, Nat.not_le.mpr hlt,
        List.getElem?_eq_getElem hlt]
    · have hlt : ulChildID < oNParent.fileChildren.length := by
        simpa [selChildren, hdir] using h
      simp [Node_getChild, selChildren, hdir, Nat.not_le.mpr hlt,
        List.getElem?_eq_getElem hlt]

/-- Witness for C8: on the parent `root` with directory children
`[root/a, root/c]`, index 2 is out of bounds and index 0 returns the
first directory child. -/
theorem Node_getChild_bounds_witness :
    Node_getChild true wParent 2 = (Status.NO_SUCH_PATH, none) ∧
    Node_getChild true wParent 0 = (Status.SUCCESS, some wNodeA) := by
  exact ⟨(Node_getChild_bounds true wParent 2).1 (by decide),
    (Node_getChild_bounds true wParent 0).2 (by decide)⟩

/-- When no element of the collection has the sought pathname, the binary
search reports not-found (and leaves its insertion index). -/
theorem bsearch_not_found (key : String) (l : List Node)
    (h : ∀ c ∈ l, Path_getPathname c.path ≠ key) :
    (DynArray_bsearch (fun n => Node_compareString n key) l).1 = false := by
  induction l with
  | nil => rfl
  | cons x xs ih =>
    have hx : Node_compareString x key ≠ Ordering.eq := fun he =>
      h x (List.mem_cons_self x xs) ((strCmp_eq_iff _ _).mp he)
    unfold DynArray_bsearch
    dsimp only
    split
    next heq => exact ih fun c hc => h c (List.mem_cons_of_mem x hc)
    next heq => exact absurd heq hx
    next heq => rfl

/-- Claim C10 (confirmed): when the candidate path matches no child in
either collection, `Node_hasChild` reports `false`, returns the
`isDir` output exactly as the caller passed it in (it is written only on
a successful match), and stores in the index output the insertion
position computed by the search over the *file*-children collection —
the position from the earlier directory-children search is overwritten,
whatever the candidate's type. -/
theorem Node_hasChild_no_match (oNParent : Node) (oPPath : PathT)
    (pulChildID : Nat) (d0 : Bool)
    (h : ∀ c ∈ oNParent.dirChildren ++ oNParent.fileChildren,
        Path_getPathname c.path ≠ Path_getPathname oPPath) :
    Node_hasChild oNParent oPPath pulChildID d0 =
      (false,
       (DynArray_bsearch
         (fun n => Node_compareString n (Path_getPathname oPPath))
         oNParent.fileChildren).2,
       d0) := by
  have hd := bsearch_not_found (Path_getPathname oPPath)
    oNParent.dirChildren fun c hc => h c (List.mem_append_left _ hc)
  have hf := bsearch_not_found (Path_getPathname oPPath)
    oNParent.fileChildren fun c hc => h c (List.mem_append_right _ hc)
  unfold Node_hasChild
  simp [hd, hf]

/-- Witness for C10: looking up `root/b` (present in neither collection)
under the parent `root` returns not-found, echoes either incoming value
of the `isDir` output, and stores index 0 — the insertion position in the
file-children collection `[root/f]`, not the position 1 that the search
over the directory children `[root/a, root/c]` computed. -/
theorem Node_hasChild_no_match_witness :
    Node_hasChild wParent ["root", "b"] 5 true = (false, 0, true) ∧
    Node_hasChild wParent ["root", "b"] 5 false = (false, 0, false) ∧
    (DynArray_bsearch
      (fun n => Node_compareString n (Path_getPathname ["root", "b"]))
      wParent.dirChildren).2 = 1 := by
  refine ⟨?_, ?_, rfl⟩
  · exact Node_hasChild_no_match wParent ["root", "b"] 5 true (by decide)
  · exact Node_hasChild_no_match wParent ["root", "b"] 5 false (by decide)

end NodeFT
